import Mathlib

/-!
Shallow embedding of src/Library.py (a console library-management program).

Strings are Lean `String`s; the Python string methods used by the source
(strip, upper, title, split on a single character, join) are modelled over
the underlying character lists.  Python's insertion-ordered `dict` is an
association list; Python's `set` is a duplicate-free list whose order
stands for the (unspecified) iteration order, with insertion appending
at the end.  Each operation of the `Library` class becomes a pure function
from the in-memory state to a result paired with the next state; the error
cases return the state unchanged, as the methods do.  File persistence is
modelled by serialization to and parsing from a list of lines.
-/

namespace LibraryMgmt

/-- Python `str.strip()` restricted to the whitespace characters that occur
in this program's data (mirrors line 91 etc. of src/Library.py). -/
def pyStrip (s : String) : String :=
  String.mk (((s.data.dropWhile Char.isWhitespace).reverse.dropWhile Char.isWhitespace).reverse)

/-- Python `str.upper()` (ASCII case mapping suffices for the ids used). -/
def pyUpper (s : String) : String :=
  String.mk (s.data.map Char.toUpper)

/-- Helper for `pyTitle`: the boolean records whether the previous
character was alphabetic. -/
def titleMap : Bool → List Char → List Char
  | _, [] => []
  | prev, c :: cs =>
      (if c.isAlpha then (if prev then c.toLower else c.toUpper) else c) :: titleMap c.isAlpha cs

/-- Python `str.title()`: the first letter of every alphabetic run is
uppercased, the rest lowercased (src/Library.py lines 97-98). -/
def pyTitle (s : String) : String :=
  String.mk (titleMap false s.data)

/-- Helper for `pySplit`: accumulates the current field in reverse. -/
def splitAux (sep : Char) : List Char → List Char → List (List Char)
  | [], acc => [acc.reverse]
  | c :: cs, acc =>
      if c == sep then acc.reverse :: splitAux sep cs [] else splitAux sep cs (c :: acc)

/-- Python `str.split(sep)` for a single-character separator: n separators
yield n+1 fields, and the empty string yields one empty field. -/
def pySplit (sep : Char) (s : String) : List String :=
  (splitAux sep s.data []).map String.mk

/-- Python `sep.join(xs)`. -/
def pyJoin (sep : String) : List String → String
  | [] => ""
  | [x] => x
  | x :: y :: xs => x ++ sep ++ pyJoin sep (y :: xs)

/-- A catalog entry (the dict `{'id': ..., 'title': ..., 'author': ...}`). -/
structure Book where
  id : String
  title : String
  author : String
deriving DecidableEq, Repr

/-- The in-memory state of the `Library` class: `catalog` (a Python list),
`available_book_ids` (a Python set, modelled as a duplicate-free list), and
`issued_records` (a Python dict from student id to a set of book ids,
modelled as an insertion-ordered association list). -/
structure LibState where
  catalog : List Book
  available_book_ids : List String
  issued_records : List (String × List String)
deriving DecidableEq, Repr

/-- Python `set.add` on the list model: append when absent. -/
def setAdd (s : List String) (b : String) : List String :=
  if s.contains b then s else s ++ [b]

/-- Python `set.remove`/`discard` on the list model. -/
def setRemove (s : List String) (b : String) : List String :=
  s.filter (fun x => x != b)

/-- Python `set(xs)`: deduplicate, keeping first occurrences. -/
def toSet (xs : List String) : List String :=
  xs.foldl setAdd []

/-- Outcome of `add_book` (src/Library.py lines 87-105), for one attempted id. -/
inductive AddResult where
  | ok
  | duplicateId
deriving DecidableEq, Repr

/-- Outcome of `issue_book` (src/Library.py lines 132-164). -/
inductive IssueResult where
  | ok
  | bookNotFound
  | bookAlreadyIssued
deriving DecidableEq, Repr

/-- Outcome of `return_book` (src/Library.py lines 167-188). -/
inductive ReturnResult where
  | ok
  | studentHasNoRecords
  | bookNotIssuedToStudent
deriving DecidableEq, Repr

/-- Outcome of `display_available_books` (src/Library.py lines 107-128):
the three printed shapes, with the listing carrying the 1-based index. -/
inductive DisplayResult where
  | catalogEmpty
  | allIssued
  | listing (entries : List (Nat × Book))
deriving DecidableEq, Repr

/-- `Library.add_book` on one attempted id (the method re-prompts on a
duplicate id, which here is the error outcome with the state unchanged):
normalize the id, reject a member of `available_book_ids`, otherwise append
the title-cased book to the catalog and the id to the set. -/
def add_book (st : LibState) (bookIdRaw titleRaw authorRaw : String) : AddResult × LibState :=
  let book_id := pyUpper (pyStrip bookIdRaw)
  if st.available_book_ids.contains book_id then
    (AddResult.duplicateId, st)
  else
    let title := pyTitle (pyStrip titleRaw)
    let author := pyTitle (pyStrip authorRaw)
    (AddResult.ok,
      { st with
        catalog := st.catalog ++ [{ id := book_id, title := title, author := author }],
        available_book_ids := st.available_book_ids ++ [book_id] })

/-- The union of all students' issued book-id sets,
`set().union(*self.issued_records.values())` (src/Library.py line 115);
only membership in the result is meaningful. -/
def issuedUnion (records : List (String × List String)) : List String :=
  records.foldl (fun acc e => acc ++ e.2) []

/-- The filtered list of src/Library.py lines 117-120: catalog books whose
id is in no student's issued set, in catalog order. -/
def available_books (st : LibState) : List Book :=
  st.catalog.filter (fun b => !(issuedUnion st.issued_records).contains b.id)

/-- `enumerate(available_books, 1)`: pair each book with its 1-based index. -/
def enumBooks (n : Nat) : List Book → List (Nat × Book)
  | [] => []
  | b :: bs => (n, b) :: enumBooks (n + 1) bs

/-- `Library.display_available_books`: report an empty catalog, else filter
out issued books; report all-issued, else the 1-indexed listing.  The
method mutates nothing, so the state is returned unchanged. -/
def display_available_books (st : LibState) : DisplayResult × LibState :=
  if st.catalog.isEmpty then
    (DisplayResult.catalogEmpty, st)
  else
    let avail := available_books st
    if avail.isEmpty then
      (DisplayResult.allIssued, st)
    else
      (DisplayResult.listing (enumBooks 1 avail), st)

/-- The dict update of src/Library.py lines 158-161: ensure the student has
an entry (a fresh key is appended at the end, as in a Python dict), then
add the book id to that student's set. -/
def issueAdd (sid bid : String) : List (String × List String) → List (String × List String)
  | [] => [(sid, [bid])]
  | e :: rest =>
      if e.1 == sid then (e.1, setAdd e.2 bid) :: rest else e :: issueAdd sid bid rest

/-- `Library.issue_book`: normalize both ids; fail if the book id is not in
the catalog, then if it is in any student's issued set; otherwise record
the issue. -/
def issue_book (st : LibState) (studentIdRaw bookIdRaw : String) : IssueResult × LibState :=
  let student_id := pyUpper (pyStrip studentIdRaw)
  let book_id := pyUpper (pyStrip bookIdRaw)
  if !(st.catalog.any (fun b => b.id == book_id)) then
    (IssueResult.bookNotFound, st)
  else if st.issued_records.any (fun e => e.2.contains book_id) then
    (IssueResult.bookAlreadyIssued, st)
  else
    (IssueResult.ok, { st with issued_records := issueAdd student_id book_id st.issued_records })

/-- `self.issued_records[student_id]` (first, hence in a dict the only,
entry with the key; the empty set when the key is absent). -/
def lookupSet (sid : String) : List (String × List String) → List String
  | [] => []
  | e :: rest => if e.1 == sid then e.2 else lookupSet sid rest

/-- The removal of src/Library.py lines 177-183: take the book id out of
the student's set and drop the student's entry when the set becomes empty. -/
def returnRemove (sid bid : String) : List (String × List String) → List (String × List String)
  | [] => []
  | e :: rest =>
      if e.1 == sid then
        (if (setRemove e.2 bid).isEmpty then rest else (e.1, setRemove e.2 bid) :: rest)
      else e :: returnRemove sid bid rest

/-- `Library.return_book`: normalize both ids; fail if the student has no
entry, then if the book is not in the student's set; otherwise remove it
(dropping the entry when the set empties). -/
def return_book (st : LibState) (studentIdRaw bookIdRaw : String) : ReturnResult × LibState :=
  let student_id := pyUpper (pyStrip studentIdRaw)
  let book_id := pyUpper (pyStrip bookIdRaw)
  if !(st.issued_records.any (fun e => e.1 == student_id)) then
    (ReturnResult.studentHasNoRecords, st)
  else if (lookupSet student_id st.issued_records).contains book_id then
    (ReturnResult.ok, { st with issued_records := returnRemove student_id book_id st.issued_records })
  else
    (ReturnResult.bookNotIssuedToStudent, st)

/-- `Library._save_catalog`: one pipe-delimited line per book, in order. -/
def save_catalog (catalog : List Book) : List String :=
  catalog.map (fun b => b.id ++ "|" ++ b.title ++ "|" ++ b.author)

/-- `Library._load_catalog`: split each stripped line on the pipes, keep
exactly-3-field lines, strip each field. -/
def load_catalog (lines : List String) : List Book :=
  lines.foldl
    (fun cat line =>
      let parts := pySplit '|' (pyStrip line)
      match parts with
      | [p0, p1, p2] => cat ++ [{ id := pyStrip p0, title := pyStrip p1, author := pyStrip p2 }]
      | _ => cat)
    []

/-- `Library._save_issued_records`: one line per student, the book-id set
comma-joined after the student id, a colon and a space. -/
def save_issued_records (records : List (String × List String)) : List String :=
  records.map (fun e => e.1 ++ ": " ++ pyJoin "," e.2)

/-- The dict assignment `records[student_id] = book_ids`: overwrite the
first entry carrying the key in place, or append a fresh key. -/
def dictSet (sid : String) (v : List String) : List (String × List String) → List (String × List String)
  | [] => [(sid, v)]
  | e :: rest => if e.1 == sid then (e.1, v) :: rest else e :: dictSet sid v rest

/-- `Library._load_issued_records`: split each stripped line on the colons,
keep exactly-2-field lines, strip the student id, and split the remainder
on commas into a set.  The individual book ids are NOT stripped by the
source. -/
def load_issued_records (lines : List String) : List (String × List String) :=
  lines.foldl
    (fun recs line =>
      let parts := pySplit ':' (pyStrip line)
      match parts with
      | [p0, p1] => dictSet (pyStrip p0) (toSet (pySplit ',' p1)) recs
      | _ => recs)
    []

/-- The `Library.__init__` load path applied to the two saved files: the
catalog is re-read, `available_book_ids` is recomputed as the set of
catalog ids (src/Library.py line 18), and the issued records are re-read. -/
def reloadState (st : LibState) : LibState :=
  let cat := load_catalog (save_catalog st.catalog)
  { catalog := cat,
    available_book_ids := toSet (cat.map Book.id),
    issued_records := load_issued_records (save_issued_records st.issued_records) }

/-! Concrete states used to instantiate the theorems. -/

/-- The book of the spec's scenario. -/
def bk1 : Book := { id := "B101", title := "Python Guide", author := "G V" }

/-- A second book. -/
def bk2 : Book := { id := "B202", title := "Data Science", author := "A B" }

/-- The empty in-memory state (fresh files). -/
def stEmpty : LibState := { catalog := [], available_book_ids := [], issued_records := [] }

/-- State after adding `bk1` to the empty state. -/
def stOne : LibState := { catalog := [bk1], available_book_ids := ["B101"], issued_records := [] }

/-- State after issuing `bk1` to student S101 in `stOne`. -/
def stOneIssued : LibState :=
  { catalog := [bk1], available_book_ids := ["B101"], issued_records := [("S101", ["B101"])] }

/-- Two-book state with `bk1` issued to S101. -/
def stTwo : LibState :=
  { catalog := [bk1, bk2], available_book_ids := ["B101", "B202"],
    issued_records := [("S101", ["B101"])] }

/-! Frame helper lemmas: which state components each operation can touch. -/

theorem add_book_issued_eq (st : LibState) (i t a : String) :
    (add_book st i t a).2.issued_records = st.issued_records := by
  simp only [add_book]
  split <;> rfl

theorem issue_book_catalog_eq (st : LibState) (sid bid : String) :
    (issue_book st sid bid).2.catalog = st.catalog := by
  simp only [issue_book]
  split
  · rfl
  · split <;> rfl

theorem issue_book_avail_eq (st : LibState) (sid bid : String) :
    (issue_book st sid bid).2.available_book_ids = st.available_book_ids := by
  simp only [issue_book]
  split
  · rfl
  · split <;> rfl

theorem return_book_catalog_eq (st : LibState) (sid bid : String) :
    (return_book st sid bid).2.catalog = st.catalog := by
  simp only [return_book]
  split
  · rfl
  · split <;> rfl

theorem return_book_avail_eq (st : LibState) (sid bid : String) :
    (return_book st sid bid).2.available_book_ids = st.available_book_ids := by
  simp only [return_book]
  split
  · rfl
  · split <;> rfl

/-- C1: the claim asserts that saving the catalog and the issued records
and reloading both yields the identical in-memory state whenever the
fields avoid the delimiter characters.  The source violates this:
`_save_issued_records` writes a space after the colon while
`_load_issued_records` never strips the individual book ids, so the first
book id of every student gains a leading space on reload.  Evaluated here
at the state whose issued records are S101 holding B101 (no forbidden
characters anywhere): the reloaded state carries " B101" instead of
"B101". -/
theorem reload_issued_records_leading_space_bug :
    reloadState stOneIssued =
      { catalog := [bk1], available_book_ids := ["B101"],
        issued_records := [("S101", [" B101"])] } ∧
    reloadState stOneIssued ≠ stOneIssued := by
  constructor
  · decide
  · decide

/-- C5: adding a book whose normalized (uppercased, trimmed) id is already
a member of `available_book_ids` reports the duplicate-id error and leaves
the whole state (catalog, available ids, issued records) unchanged. -/
theorem add_book_duplicate_rejected (st : LibState) (i t a : String)
    (h : pyUpper (pyStrip i) ∈ st.available_book_ids) :
    add_book st i t a = (AddResult.duplicateId, st) := by
  simp only [add_book]
  split
  · rfl
  · rename_i hc
    simp only [List.contains, List.elem_eq_mem, decide_eq_true_eq] at hc
    exact absurd h hc

/-- C5 witness: adding "b101 " (which normalizes to the existing id
"B101") to `stOne` is rejected with the state unchanged. -/
theorem add_book_duplicate_rejected_witness :
    add_book stOne "b101 " "other title" "other author" = (AddResult.duplicateId, stOne) :=
  add_book_duplicate_rejected stOne "b101 " "other title" "other author" (by decide)

/-- C6: adding a fresh id appends exactly one book at the end of the
catalog, with the id uppercased and trimmed and the title and author
title-cased, appends the id to `available_book_ids`, and leaves the
issued records unchanged. -/
theorem add_book_fresh_appends (st : LibState) (i t a : String)
    (h : pyUpper (pyStrip i) ∉ st.available_book_ids) :
    add_book st i t a =
      (AddResult.ok,
        { catalog := st.catalog ++
            [{ id := pyUpper (pyStrip i), title := pyTitle (pyStrip t),
               author := pyTitle (pyStrip a) }],
          available_book_ids := st.available_book_ids ++ [pyUpper (pyStrip i)],
          issued_records := st.issued_records }) := by
  simp only [add_book]
  split
  · rename_i hc
    simp only [List.contains, List.elem_eq_mem, decide_eq_true_eq] at hc
    exact absurd hc h
  · rfl

/-- C6 witness: the spec scenario.  From the empty state,
addBook("B101", "python guide", "g v") produces the catalog
[{B101, "Python Guide", "G V"}], and listAvailable then shows exactly the
one entry, 1-indexed. -/
theorem add_book_fresh_appends_witness :
    add_book stEmpty "B101" "python guide" "g v" =
      (AddResult.ok, { catalog := [bk1], available_book_ids := ["B101"], issued_records := [] }) ∧
    (display_available_books stOne).1 = DisplayResult.listing [(1, bk1)] := by
  constructor
  · have h := add_book_fresh_appends stEmpty "B101" "python guide" "g v" (by decide)
    simpa using h
  · decide

/-- C8: when `issued_records` is empty, the union of issued book ids is
the empty set and the available-books filter keeps the whole catalog, so
`display_available_books` cannot fail on the empty union. -/
theorem empty_records_all_available (st : LibState)
    (h : st.issued_records = []) :
    issuedUnion st.issued_records = [] ∧ available_books st = st.catalog := by
  constructor
  · rw [h]; rfl
  · simp only [available_books, h, issuedUnion]
    simp [List.filter_eq_self]

/-- C8 witness: on a two-book state with no issued records every catalog
book is available. -/
theorem empty_records_all_available_witness :
    issuedUnion ([] : List (String × List String)) = [] ∧
    available_books { catalog := [bk1, bk2], available_book_ids := ["B101", "B202"],
                      issued_records := [] } = [bk1, bk2] :=
  empty_records_all_available
    { catalog := [bk1, bk2], available_book_ids := ["B101", "B202"], issued_records := [] }
    rfl

/-- C10: frame effects.  `issue_book` and `return_book` never change the
catalog or the available-id set, whether they succeed or fail, and
`add_book` never changes the issued records, whether it succeeds or
fails. -/
theorem operations_frame_effects (st : LibState) (sid bid i t a : String) :
    (issue_book st sid bid).2.catalog = st.catalog ∧
    (issue_book st sid bid).2.available_book_ids = st.available_book_ids ∧
    (return_book st sid bid).2.catalog = st.catalog ∧
    (return_book st sid bid).2.available_book_ids = st.available_book_ids ∧
    (add_book st i t a).2.issued_records = st.issued_records :=
  ⟨issue_book_catalog_eq st sid bid, issue_book_avail_eq st sid bid,
   return_book_catalog_eq st sid bid, return_book_avail_eq st sid bid,
   add_book_issued_eq st i t a⟩

/-- C3: the two failure cases of `issue_book`.  With the book id
normalized (uppercased, trimmed): when no catalog book carries the id the
result is `bookNotFound` with the state unchanged, and when some student's
issued set contains the id (the id being in the catalog, which the data
model's issued-implies-catalog invariant guarantees) the result is
`bookAlreadyIssued` with the state unchanged, regardless of the student
attempting the issue. -/
theorem issue_book_failure_cases (st : LibState) (sid bid : String) :
    ((∀ b ∈ st.catalog, b.id ≠ pyUpper (pyStrip bid)) →
        issue_book st sid bid = (IssueResult.bookNotFound, st)) ∧
    ((∃ b ∈ st.catalog, b.id = pyUpper (pyStrip bid)) →
     (∃ e ∈ st.issued_records, pyUpper (pyStrip bid) ∈ e.2) →
        issue_book st sid bid = (IssueResult.bookAlreadyIssued, st)) := by
  constructor
  · intro h
    have hc : (st.catalog.any fun b => b.id == pyUpper (pyStrip bid)) = false := by
      simp only [List.any_eq_false, beq_iff_eq]
      exact h
    simp [issue_book, hc]
  · intro hcat hiss
    have hc : (st.catalog.any fun b => b.id == pyUpper (pyStrip bid)) = true := by
      simp only [List.any_eq_true, beq_iff_eq]
      exact hcat
    have hi : (st.issued_records.any fun e => e.2.contains (pyUpper (pyStrip bid))) = true := by
      simp only [List.any_eq_true, List.contains, List.elem_eq_mem, decide_eq_true_eq]
      exact hiss
    simp [issue_book, hc, hi]
    obtain ⟨⟨k, s⟩, hmem, hx⟩ := hiss
    exact ⟨k, s, hmem, hx⟩

/-- C3 witness: issuing the unknown id "B999" fails with `bookNotFound`,
and student S202 issuing "B101", already held by S101, fails with
`bookAlreadyIssued`; the state is unchanged both times. -/
theorem issue_book_failure_cases_witness :
    issue_book stOne "S102" "B999" = (IssueResult.bookNotFound, stOne) ∧
    issue_book stOneIssued "S202" "B101" = (IssueResult.bookAlreadyIssued, stOneIssued) :=
  ⟨(issue_book_failure_cases stOne "S102" "B999").1 (by decide),
   (issue_book_failure_cases stOneIssued "S202" "B101").2 (by decide) (by decide)⟩

theorem mem_foldl_append (recs : List (String × List String)) (acc : List String) (x : String) :
    x ∈ recs.foldl (fun acc e => acc ++ e.2) acc ↔ x ∈ acc ∨ ∃ e ∈ recs, x ∈ e.2 := by
  induction recs generalizing acc with
  | nil => simp
  | cons e rest ih =>
      simp only [List.foldl_cons, ih, List.mem_append, List.mem_cons]
      constructor
      · rintro (⟨hx | hx⟩ | ⟨y, hy, hx⟩)
        · exact Or.inl hx
        · exact Or.inr ⟨e, Or.inl rfl, hx⟩
        · exact Or.inr ⟨y, Or.inr hy, hx⟩
      · rintro (hx | ⟨y, hy | hy, hx⟩)
        · exact Or.inl (Or.inl hx)
        · exact Or.inl (Or.inr (hy ▸ hx))
        · exact Or.inr ⟨y, hy, hx⟩

theorem mem_issuedUnion (recs : List (String × List String)) (x : String) :
    x ∈ issuedUnion recs ↔ ∃ e ∈ recs, x ∈ e.2 := by
  simpa using mem_foldl_append recs [] x

theorem available_books_eq_filter_any (st : LibState) :
    available_books st =
      st.catalog.filter (fun b => !(st.issued_records.any fun e => e.2.contains b.id)) := by
  unfold available_books
  apply List.filter_congr
  intro b _
  congr 1
  rw [Bool.eq_iff_iff]
  simp only [List.contains, List.elem_eq_mem, decide_eq_true_eq, mem_issuedUnion,
    List.any_eq_true]

/-- C7: `display_available_books` realizes the spec of listAvailable.  The
available books are exactly the catalog books whose id lies in no
student's issued set (equivalently, outside the union of all issued sets),
in catalog order; the empty catalog reports `catalogEmpty`, a non-empty
catalog whose filtered list is empty reports `allIssued`, and otherwise
the result is the 1-indexed listing of the available books. -/
theorem display_available_books_spec (st : LibState) :
    (st.catalog = [] → display_available_books st = (DisplayResult.catalogEmpty, st)) ∧
    (st.catalog ≠ [] → available_books st = [] →
        display_available_books st = (DisplayResult.allIssued, st)) ∧
    (available_books st ≠ [] →
        display_available_books st =
          (DisplayResult.listing (enumBooks 1 (available_books st)), st)) ∧
    available_books st =
      st.catalog.filter (fun b => !(st.issued_records.any fun e => e.2.contains b.id)) := by
  refine ⟨?_, ?_, ?_, available_books_eq_filter_any st⟩
  · intro h
    simp [display_available_books, h]
  · intro hcat havail
    simp [display_available_books, List.isEmpty_iff, hcat, havail]
  · intro havail
    have hcat : st.catalog ≠ [] := by
      intro hc
      apply havail
      simp [available_books, hc]
    simp [display_available_books, List.isEmpty_iff, hcat, havail]

/-- C7 witness: the empty catalog reports `catalogEmpty`; a one-book
catalog whose only book is issued reports `allIssued`; a two-book catalog
with one book issued lists the other with index 1. -/
theorem display_available_books_spec_witness :
    display_available_books stEmpty = (DisplayResult.catalogEmpty, stEmpty) ∧
    display_available_books stOneIssued = (DisplayResult.allIssued, stOneIssued) ∧
    display_available_books stTwo = (DisplayResult.listing [(1, bk2)], stTwo) := by
  refine ⟨(display_available_books_spec stEmpty).1 rfl,
    (display_available_books_spec stOneIssued).2.1 (by decide) (by decide), ?_⟩
  have h := (display_available_books_spec stTwo).2.2.1 (by decide)
  rw [h]
  decide

theorem lookupSet_issueAdd (sid bid : String) (recs : List (String × List String)) :
    lookupSet sid (issueAdd sid bid recs) = setAdd (lookupSet sid recs) bid := by
  induction recs with
  | nil => simp [issueAdd, lookupSet, setAdd]
  | cons e rest ih =>
      by_cases he : e.1 == sid
      · simp [issueAdd, lookupSet, he]
      · simp [issueAdd, lookupSet, he, ih]

theorem any_key_issueAdd (sid bid : String) (recs : List (String × List String)) :
    ((issueAdd sid bid recs).any fun e => e.1 == sid) = true := by
  induction recs with
  | nil => simp [issueAdd]
  | cons e rest ih =>
      by_cases he : e.1 == sid
      · simp [issueAdd, he]
      · simp [issueAdd, he, ih]

theorem contains_setAdd_self (s : List String) (b : String) :
    (setAdd s b).contains b = true := by
  simp only [setAdd]
  split
  · assumption
  · simp

theorem returnRemove_issueAdd (sid bid : String) (recs : List (String × List String))
    (hfree : (recs.any fun e => e.2.contains bid) = false)
    (hwf : ∀ e ∈ recs, e.2 ≠ []) :
    returnRemove sid bid (issueAdd sid bid recs) = recs := by
  induction recs with
  | nil => simp [issueAdd, returnRemove, setRemove]
  | cons e rest ih =>
      simp only [List.any_cons, Bool.or_eq_false_iff] at hfree
      obtain ⟨hfe, hfr⟩ := hfree
      have hmemfe : bid ∉ e.2 := by
        simp only [List.contains, List.elem_eq_mem, decide_eq_false_iff_not] at hfe
        exact hfe
      by_cases he : e.1 == sid
      · have hsub : setAdd e.2 bid = e.2 ++ [bid] := by
          simp [setAdd, hfe, hmemfe]
        have hrem : setRemove (e.2 ++ [bid]) bid = e.2 := by
          simp only [setRemove, List.filter_append]
          rw [List.filter_eq_self.mpr, List.filter_cons]
          · simp
          · intro x hx
            simp only [bne_iff_ne, ne_eq]
            intro hxb
            exact hmemfe (hxb ▸ hx)
        have hne : e.2.isEmpty = false := by
          cases h2 : e.2 with
          | nil => exact absurd h2 (hwf e (List.mem_cons_self e rest))
          | cons c cs => rfl
        simp [issueAdd, returnRemove, he, hsub, hrem, hne]
      · have ih2 := ih hfr (fun x hx => hwf x (List.mem_cons_of_mem e hx))
        simp [issueAdd, returnRemove, he, ih2]

/-- C2: for a state of the data model (every student entry holds a
non-empty issued set), whenever issueBook succeeds, returning the same
(studentId, bookId) succeeds and restores the complete prior state: the
issued records are exactly what they were before the issue, and
listAvailable produces exactly its prior output. -/
theorem issue_then_return_restores (st st2 : LibState) (sid bid : String)
    (hwf : ∀ e ∈ st.issued_records, e.2 ≠ [])
    (h : issue_book st sid bid = (IssueResult.ok, st2)) :
    return_book st2 sid bid = (ReturnResult.ok, st) ∧
    (return_book st2 sid bid).2.issued_records = st.issued_records ∧
    display_available_books (return_book st2 sid bid).2 = display_available_books st := by
  simp only [issue_book] at h
  split at h
  · simp at h
  · split at h
    · simp at h
    · rename_i hcat hiss
      have hiss' :
          (st.issued_records.any fun e => e.2.contains (pyUpper (pyStrip bid))) = false := by
        revert hiss
        cases st.issued_records.any fun e => e.2.contains (pyUpper (pyStrip bid)) <;> simp
      simp only [Prod.mk.injEq, true_and] at h
      subst h
      have hmain : return_book
          { st with issued_records :=
              issueAdd (pyUpper (pyStrip sid)) (pyUpper (pyStrip bid)) st.issued_records }
          sid bid = (ReturnResult.ok, st) := by
        have e1 := any_key_issueAdd (pyUpper (pyStrip sid)) (pyUpper (pyStrip bid))
          st.issued_records
        have e2 := lookupSet_issueAdd (pyUpper (pyStrip sid)) (pyUpper (pyStrip bid))
          st.issued_records
        have e3 := contains_setAdd_self
          (lookupSet (pyUpper (pyStrip sid)) st.issued_records) (pyUpper (pyStrip bid))
        have e4 := returnRemove_issueAdd (pyUpper (pyStrip sid)) (pyUpper (pyStrip bid))
          st.issued_records hiss' hwf
        simp only [return_book, e1, e2, e3, e4, Bool.not_true, Bool.false_eq_true,
          if_false, if_true]
      exact ⟨hmain, by rw [hmain], by rw [hmain]⟩

/-- C2 witness: issuing B101 to S101 in the one-book state succeeds and
yields `stOneIssued`; returning it restores the prior state, records and
listing. -/
theorem issue_then_return_restores_witness :
    return_book stOneIssued "S101" "B101" = (ReturnResult.ok, stOne) ∧
    (return_book stOneIssued "S101" "B101").2.issued_records = stOne.issued_records ∧
    display_available_books (return_book stOneIssued "S101" "B101").2 =
      display_available_books stOne :=
  issue_then_return_restores stOne stOneIssued "S101" "B101" (by decide) (by decide)

theorem lookupSet_eq_nil_of_no_key (k : String) (recs : List (String × List String))
    (h : ∀ e ∈ recs, e.1 ≠ k) : lookupSet k recs = [] := by
  induction recs with
  | nil => rfl
  | cons e rest ih =>
      have he : (e.1 == k) = false := by
        simp only [beq_eq_false_iff_ne, ne_eq]
        exact h e (List.mem_cons_self e rest)
      simp only [lookupSet, he, if_false, Bool.false_eq_true]
      exact ih fun x hx => h x (List.mem_cons_of_mem e hx)

theorem any_key_of_mem_lookupSet (k b : String) (recs : List (String × List String))
    (h : b ∈ lookupSet k recs) : (recs.any fun e => e.1 == k) = true := by
  induction recs with
  | nil => simp [lookupSet] at h
  | cons e rest ih =>
      by_cases he : e.1 == k
      · simp [he]
      · simp only [lookupSet, he, if_false, Bool.false_eq_true] at h
        simp [ih h]

theorem lookupSet_returnRemove (sid bid : String) (recs : List (String × List String))
    (hkeys : recs.Pairwise fun e1 e2 => e1.1 ≠ e2.1) :
    lookupSet sid (returnRemove sid bid recs) =
      setRemove (lookupSet sid recs) bid := by
  induction recs with
  | nil => simp [returnRemove, lookupSet, setRemove]
  | cons e rest ih =>
      obtain ⟨hhead, htail⟩ := List.pairwise_cons.mp hkeys
      by_cases he : e.1 == sid
      · have hesid : e.1 = sid := by
          simpa using he
      -- the head entry is the student's; the result depends on emptiness
        by_cases hemp : (setRemove e.2 bid).isEmpty
        · have hnil : setRemove e.2 bid = [] := by
            simpa [List.isEmpty_iff] using hemp
          have hrest : lookupSet sid rest = [] := by
            apply lookupSet_eq_nil_of_no_key
            intro x hx
            intro hxk
            exact hhead x hx (hesid.trans hxk.symm)
          simp [returnRemove, lookupSet, he, hemp, hrest, hnil]
        · simp [returnRemove, lookupSet, he, hemp]
      · simp only [returnRemove, lookupSet, he, if_false, Bool.false_eq_true]
        exact ih htail

theorem no_key_returnRemove (sid bid : String) (recs : List (String × List String))
    (hkeys : recs.Pairwise fun e1 e2 => e1.1 ≠ e2.1)
    (hin : bid ∈ lookupSet sid recs)
    (hempty : setRemove (lookupSet sid recs) bid = []) :
    ∀ e ∈ returnRemove sid bid recs, e.1 ≠ sid := by
  induction recs with
  | nil => intro e he; simp [returnRemove] at he
  | cons e rest ih =>
      obtain ⟨hhead, htail⟩ := List.pairwise_cons.mp hkeys
      by_cases he : e.1 == sid
      · have hesid : e.1 = sid := by simpa using he
        simp only [lookupSet, he, if_true] at hempty
        have hemp : (setRemove e.2 bid).isEmpty = true := by
          simp [List.isEmpty_iff, hempty]
        simp only [returnRemove, he, if_true, hemp]
        intro x hx hxk
        exact hhead x hx (hesid.trans hxk.symm)
      · simp only [lookupSet, he, if_false, Bool.false_eq_true] at hin hempty
        simp only [returnRemove, he, if_false, Bool.false_eq_true]
        intro x hx
        rcases List.mem_cons.mp hx with hxe | hxr
        · subst hxe
          simpa using he
        · exact ih htail hin hempty x hxr

/-- C4: the specification of `return_book` over data-model states (keys
pairwise distinct, as in a Python dict).  With both ids normalized: a
student id with no entry fails with `studentHasNoRecords`, a book id
outside the student's set fails with `bookNotIssuedToStudent`, both with
the state unchanged; a successful return removes exactly that book id
from the student's set, and when the set thereby becomes empty the
student's key itself is absent from the resulting records. -/
theorem return_book_spec (st : LibState) (sid bid : String)
    (hkeys : st.issued_records.Pairwise fun e1 e2 => e1.1 ≠ e2.1) :
    ((∀ e ∈ st.issued_records, e.1 ≠ pyUpper (pyStrip sid)) →
        return_book st sid bid = (ReturnResult.studentHasNoRecords, st)) ∧
    ((∃ e ∈ st.issued_records, e.1 = pyUpper (pyStrip sid)) →
     pyUpper (pyStrip bid) ∉ lookupSet (pyUpper (pyStrip sid)) st.issued_records →
        return_book st sid bid = (ReturnResult.bookNotIssuedToStudent, st)) ∧
    (pyUpper (pyStrip bid) ∈ lookupSet (pyUpper (pyStrip sid)) st.issued_records →
        (return_book st sid bid).1 = ReturnResult.ok ∧
        lookupSet (pyUpper (pyStrip sid)) (return_book st sid bid).2.issued_records =
          setRemove (lookupSet (pyUpper (pyStrip sid)) st.issued_records)
            (pyUpper (pyStrip bid)) ∧
        (setRemove (lookupSet (pyUpper (pyStrip sid)) st.issued_records)
            (pyUpper (pyStrip bid)) = [] →
          ∀ e ∈ (return_book st sid bid).2.issued_records,
            e.1 ≠ pyUpper (pyStrip sid))) := by
  refine ⟨?_, ?_, ?_⟩
  · intro h
    have hc : (st.issued_records.any fun e => e.1 == pyUpper (pyStrip sid)) = false := by
      simp only [List.any_eq_false, beq_iff_eq]
      exact h
    simp [return_book, hc]
  · intro hex hnot
    have hc : (st.issued_records.any fun e => e.1 == pyUpper (pyStrip sid)) = true := by
      simp only [List.any_eq_true, beq_iff_eq]
      exact hex
    have hl : (lookupSet (pyUpper (pyStrip sid)) st.issued_records).contains
        (pyUpper (pyStrip bid)) = false := by
      simp only [List.contains, List.elem_eq_mem, decide_eq_false_iff_not]
      exact hnot
    simp [return_book, hc, hl]
    exact hnot
  · intro hin
    have hc : (st.issued_records.any fun e => e.1 == pyUpper (pyStrip sid)) = true :=
      any_key_of_mem_lookupSet (pyUpper (pyStrip sid)) (pyUpper (pyStrip bid))
        st.issued_records hin
    have hl : (lookupSet (pyUpper (pyStrip sid)) st.issued_records).contains
        (pyUpper (pyStrip bid)) = true := by
      simp only [List.contains, List.elem_eq_mem, decide_eq_true_eq]
      exact hin
    have hret : return_book st sid bid =
        (ReturnResult.ok,
          { st with issued_records := returnRemove (pyUpper (pyStrip sid)) (pyUpper (pyStrip bid)) st.issued_records }) := by
      simp [return_book, hc, hl, hin]
    refine ⟨by rw [hret], ?_, ?_⟩
    · rw [hret]
      exact lookupSet_returnRemove (pyUpper (pyStrip sid)) (pyUpper (pyStrip bid))
        st.issued_records hkeys
    · intro hempty
      rw [hret]
      exact no_key_returnRemove (pyUpper (pyStrip sid)) (pyUpper (pyStrip bid))
        st.issued_records hkeys hin hempty

/-- C4 witness: with S101 holding exactly {B101}: an unknown student
fails with `studentHasNoRecords`, a book not issued to S101 fails with
`bookNotIssuedToStudent` (state unchanged both times), and returning B101
succeeds with the S101 key absent afterwards. -/
theorem return_book_spec_witness :
    return_book stOneIssued "S999" "B101" = (ReturnResult.studentHasNoRecords, stOneIssued) ∧
    return_book stOneIssued "S101" "B999" = (ReturnResult.bookNotIssuedToStudent, stOneIssued) ∧
    (return_book stOneIssued "S101" "B101").1 = ReturnResult.ok :=
  ⟨(return_book_spec stOneIssued "S999" "B101" (by decide)).1 (by decide),
   (return_book_spec stOneIssued "S101" "B999" (by decide)).2.1 (by decide) (by decide),
   ((return_book_spec stOneIssued "S101" "B101" (by decide)).2.2 (by decide)).1⟩

/-- The at-most-one-holder invariant: the issued sets of any two distinct
student entries are disjoint, so a book id belongs to at most one
student. -/
def DisjointSets (records : List (String × List String)) : Prop :=
  records.Pairwise fun e1 e2 => ∀ b, b ∈ e1.2 → b ∉ e2.2

instance (records : List (String × List String)) : Decidable (DisjointSets records) := by
  unfold DisjointSets
  exact List.instDecidablePairwise records

theorem display_state_eq (st : LibState) : (display_available_books st).2 = st := by
  simp only [display_available_books]
  split
  · rfl
  · split <;> rfl

theorem memSet_issueAdd (sid bid : String) (recs : List (String × List String))
    (x : String × List String) (hx : x ∈ issueAdd sid bid recs) :
    ∀ b ∈ x.2, (∃ y ∈ recs, b ∈ y.2) ∨ b = bid := by
  induction recs with
  | nil =>
      simp only [issueAdd, List.mem_singleton] at hx
      subst hx
      intro b hb
      simp only [List.mem_singleton] at hb
      exact Or.inr hb
  | cons e rest ih =>
      by_cases he : e.1 == sid
      · simp only [issueAdd, he, if_true, List.mem_cons] at hx
        rcases hx with hx | hx
        · subst hx
          intro b hb
          simp only [setAdd] at hb
          split at hb
          · exact Or.inl ⟨e, List.mem_cons_self e rest, hb⟩
          · rcases List.mem_append.mp hb with hb | hb
            · exact Or.inl ⟨e, List.mem_cons_self e rest, hb⟩
            · exact Or.inr (List.mem_singleton.mp hb)
        · intro b hb
          exact Or.inl ⟨x, List.mem_cons_of_mem e hx, hb⟩
      · simp only [issueAdd, he, if_false, Bool.false_eq_true, List.mem_cons] at hx
        rcases hx with hx | hx
        · subst hx
          intro b hb
          exact Or.inl ⟨x, List.mem_cons_self x rest, hb⟩
        · intro b hb
          rcases ih hx b hb with ⟨y, hy, hby⟩ | hbb
          · exact Or.inl ⟨y, List.mem_cons_of_mem e hy, hby⟩
          · exact Or.inr hbb

theorem memSet_returnRemove (sid bid : String) (recs : List (String × List String))
    (x : String × List String) (hx : x ∈ returnRemove sid bid recs) :
    ∀ b ∈ x.2, ∃ y ∈ recs, b ∈ y.2 := by
  induction recs with
  | nil => simp [returnRemove] at hx
  | cons e rest ih =>
      by_cases he : e.1 == sid
      · simp only [returnRemove, he, if_true] at hx
        split at hx
        · intro b hb
          exact ⟨x, List.mem_cons_of_mem e hx, hb⟩
        · rcases List.mem_cons.mp hx with hxe | hxr
          · subst hxe
            intro b hb
            simp only [setRemove, List.mem_filter] at hb
            exact ⟨e, List.mem_cons_self e rest, hb.1⟩
          · intro b hb
            exact ⟨x, List.mem_cons_of_mem e hxr, hb⟩
      · simp only [returnRemove, he, if_false, Bool.false_eq_true, List.mem_cons] at hx
        rcases hx with hxe | hxr
        · subst hxe
          intro b hb
          exact ⟨x, List.mem_cons_self x rest, hb⟩
        · intro b hb
          obtain ⟨y, hy, hby⟩ := ih hxr b hb
          exact ⟨y, List.mem_cons_of_mem e hy, hby⟩

theorem disjointSets_issueAdd (sid bid : String) (recs : List (String × List String))
    (hfree : (recs.any fun e => e.2.contains bid) = false)
    (h : DisjointSets recs) : DisjointSets (issueAdd sid bid recs) := by
  induction recs with
  | nil =>
      simp only [issueAdd, DisjointSets]
      exact List.pairwise_singleton _ _
  | cons e rest ih =>
      simp only [List.any_cons, Bool.or_eq_false_iff] at hfree
      obtain ⟨hfe, hfr⟩ := hfree
      have hmemfe : bid ∉ e.2 := by
        simp only [List.contains, List.elem_eq_mem, decide_eq_false_iff_not] at hfe
        exact hfe
      have hfr' : ∀ y ∈ rest, bid ∉ y.2 := by
        intro y hy
        have := (List.any_eq_false.mp hfr) y hy
        simp only [List.contains, List.elem_eq_mem, decide_eq_true_eq] at this
        exact this
      obtain ⟨hhead, htail⟩ := List.pairwise_cons.mp h
      by_cases he : e.1 == sid
      · simp only [DisjointSets, issueAdd, he, if_true]
        refine List.pairwise_cons.mpr ⟨?_, htail⟩
        intro x hx b hb
        have hb2 : b ∈ e.2 ∨ b = bid := by
          simp only [setAdd] at hb
          split at hb
          · exact Or.inl hb
          · rcases List.mem_append.mp hb with hb | hb
            · exact Or.inl hb
            · exact Or.inr (List.mem_singleton.mp hb)
        rcases hb2 with hb2 | hb2
        · exact hhead x hx b hb2
        · exact hb2 ▸ hfr' x hx
      · simp only [DisjointSets, issueAdd, he, if_false, Bool.false_eq_true]
        refine List.pairwise_cons.mpr ⟨?_, ih hfr htail⟩
        intro x hx b hb hbx
        rcases memSet_issueAdd sid bid rest x hx b hbx with ⟨y, hy, hby⟩ | hbb
        · exact hhead y hy b hb hby
        · exact hmemfe (hbb ▸ hb)

theorem disjointSets_returnRemove (sid bid : String) (recs : List (String × List String))
    (h : DisjointSets recs) : DisjointSets (returnRemove sid bid recs) := by
  induction recs with
  | nil => simpa [returnRemove] using h
  | cons e rest ih =>
      obtain ⟨hhead, htail⟩ := List.pairwise_cons.mp h
      by_cases he : e.1 == sid
      · simp only [DisjointSets, returnRemove, he, if_true]
        split
        · exact htail
        · refine List.pairwise_cons.mpr ⟨?_, htail⟩
          intro x hx b hb
          simp only [setRemove, List.mem_filter] at hb
          exact hhead x hx b hb.1
      · simp only [DisjointSets, returnRemove, he, if_false, Bool.false_eq_true]
        refine List.pairwise_cons.mpr ⟨?_, ih htail⟩
        intro x hx b hb hbx
        obtain ⟨y, hy, hby⟩ := memSet_returnRemove sid bid rest x hx b hbx
        exact hhead y hy b hb hby

/-- C9: the invariant that every book id lies in at most one student's
issued set (pairwise disjointness of the issued sets) is preserved by all
four operations: `add_book`, `issue_book` and `return_book` in success and
failure alike, and `display_available_books`, which never changes the
state. -/
theorem operations_preserve_disjointSets (st : LibState) (i t a sid bid : String)
    (h : DisjointSets st.issued_records) :
    DisjointSets (add_book st i t a).2.issued_records ∧
    DisjointSets (issue_book st sid bid).2.issued_records ∧
    DisjointSets (return_book st sid bid).2.issued_records ∧
    DisjointSets (display_available_books st).2.issued_records := by
  refine ⟨?_, ?_, ?_, ?_⟩
  · rw [add_book_issued_eq]
    exact h
  · simp only [issue_book]
    split
    · exact h
    · split
      · exact h
      · rename_i h1 h2
        have h2' : (st.issued_records.any fun e =>
            e.2.contains (pyUpper (pyStrip bid))) = false := by
          revert h2
          cases st.issued_records.any fun e => e.2.contains (pyUpper (pyStrip bid)) <;> simp
        exact disjointSets_issueAdd (pyUpper (pyStrip sid)) (pyUpper (pyStrip bid))
          st.issued_records h2' h
  · simp only [return_book]
    split
    · exact h
    · split
      · exact disjointSets_returnRemove (pyUpper (pyStrip sid)) (pyUpper (pyStrip bid))
          st.issued_records h
      · exact h
  · rw [display_state_eq]
    exact h

/-- C9 witness: the invariant holds in the two-book state with B101
issued to S101 and is preserved by adding B303, issuing B202 to S202,
returning B202 for S202, and listing. -/
theorem operations_preserve_disjointSets_witness :
    DisjointSets (add_book stTwo "B303" "new title" "new author").2.issued_records ∧
    DisjointSets (issue_book stTwo "S202" "B202").2.issued_records ∧
    DisjointSets (return_book stTwo "S202" "B202").2.issued_records ∧
    DisjointSets (display_available_books stTwo).2.issued_records :=
  operations_preserve_disjointSets stTwo "B303" "new title" "new author" "S202" "B202"
    (by decide)

end LibraryMgmt
